import Mathlib

/-!
# Verification of hydrafloods `datasets.py`

A shallow embedding of the `hydrafloods.datasets` module.  The module wraps
Earth Engine (EE) image collections: each `Dataset` filters a named remote
collection by region and time, optionally maps a quality-assurance function
over it, and offers composition operations (merge, join, temporal
aggregation, band-pass adjustment).

The EE objects are modelled concretely and executably:

* a geometry is either the unbounded footprint or a finite set of grid
  cells (`Geom`);
* a band is a named list of optional rational pixel values, `none` being a
  masked pixel (`EEBand`);
* an image carries a `system:time_start` timestamp in milliseconds, a
  footprint, its bands and its list-valued properties (`EEImage`);
* an image collection is a `List EEImage`;
* the remote catalog is a function from asset ids to collections
  (`Catalog`).

Calendar dates (`YYYY-MM-dd` strings in the Python code) are modelled as
day numbers: the string for timestamp `t` corresponds to `t.fdiv 86400000`,
and parsing a day number `d` back to a date yields `d * 86400000` ms.

Python's mutability is modelled by state passing: a method that honours an
`inplace` flag returns a pair `(returned value, new state of the receiver)`.
-/

/-- An Earth Engine geometry: either unbounded (as produced by a bare
`reduce` over a collection) or a finite set of grid cells. -/
inductive Geom where
  | unbounded : Geom
  | cells : List (Int × Int) → Geom
deriving Repr, DecidableEq

/-- Geometry intersection (`ee.Geometry.intersection`). -/
def Geom.inter : Geom → Geom → Geom
  | Geom.unbounded, g => g
  | g, Geom.unbounded => g
  | Geom.cells a, Geom.cells b => Geom.cells (a.filter (fun p => b.contains p))

/-- Whether two geometries intersect (`ee.Filter.intersects`). -/
def Geom.intersectsB : Geom → Geom → Bool
  | Geom.unbounded, Geom.unbounded => true
  | Geom.unbounded, Geom.cells b => !b.isEmpty
  | Geom.cells a, Geom.unbounded => !a.isEmpty
  | Geom.cells a, Geom.cells b => a.any (fun p => b.contains p)

/-- Geometry union (`ee.Geometry.union` / `FeatureCollection.union`). -/
def Geom.unionG : Geom → Geom → Geom
  | Geom.unbounded, _ => Geom.unbounded
  | _, Geom.unbounded => Geom.unbounded
  | Geom.cells a, Geom.cells b => Geom.cells (a ++ b.filter (fun p => !a.contains p))

/-- Union of a list of geometries, starting from the empty geometry. -/
def geomUnionAll (gs : List Geom) : Geom :=
  gs.foldl Geom.unionG (Geom.cells [])

/-- A named raster band: pixel values over an abstract pixel grid, `none`
being a masked pixel. -/
structure EEBand where
  name : String
  pix : List (Option Rat)
deriving Repr, DecidableEq

/-- An Earth Engine image: `system:time_start` in milliseconds, footprint
geometry, bands, and list-valued properties (such as
`transmitterReceiverPolarisation`). -/
structure EEImage where
  time : Int
  footprint : Geom
  bands : List EEBand
  listProps : List (String × List String)
deriving Repr, DecidableEq

/-- The image with no data, used as the value of empty mosaics/reductions. -/
def emptyImage : EEImage :=
  { time := 0, footprint := Geom.cells [], bands := [], listProps := [] }

/-- Pixel-wise `lt` against a constant, producing a 1/0 mask value. -/
def pixLt (xs : List (Option Rat)) (c : Rat) : List (Option Rat) :=
  xs.map (Option.map (fun v => if v < c then (1 : Rat) else 0))

/-- Pixel-wise `gt` against a constant. -/
def pixGt (xs : List (Option Rat)) (c : Rat) : List (Option Rat) :=
  xs.map (Option.map (fun v => if c < v then (1 : Rat) else 0))

/-- Pixel-wise `gte` against a constant. -/
def pixGte (xs : List (Option Rat)) (c : Rat) : List (Option Rat) :=
  xs.map (Option.map (fun v => if c ≤ v then (1 : Rat) else 0))

/-- Pixel-wise `lte` against a constant. -/
def pixLte (xs : List (Option Rat)) (c : Rat) : List (Option Rat) :=
  xs.map (Option.map (fun v => if v ≤ c then (1 : Rat) else 0))

/-- Pixel-wise `eq` against a constant. -/
def pixEq (xs : List (Option Rat)) (c : Rat) : List (Option Rat) :=
  xs.map (Option.map (fun v => if v = c then (1 : Rat) else 0))

/-- Pixel-wise logical `And` of two mask bands (nonzero means true). -/
def pixAnd (a b : List (Option Rat)) : List (Option Rat) :=
  List.zipWith
    (fun x y =>
      match x, y with
      | some xv, some yv => some (if xv ≠ 0 ∧ yv ≠ 0 then (1 : Rat) else 0)
      | _, _ => none)
    a b

/-- Pixel-wise logical `Not` of a mask band. -/
def pixNot (xs : List (Option Rat)) : List (Option Rat) :=
  xs.map (Option.map (fun v => if v = 0 then (1 : Rat) else 0))

/-- Pixel-wise absolute value. -/
def pixAbs (xs : List (Option Rat)) : List (Option Rat) :=
  xs.map (Option.map (fun v => |v|))

/-- Band names of an image (`ee.Image.bandNames`). -/
def EEImage.bandNames (i : EEImage) : List String :=
  i.bands.map (fun b => b.name)

/-- Pixel values of the band named `n`, or `[]` when it is absent. -/
def EEImage.bandPix (i : EEImage) (n : String) : List (Option Rat) :=
  (((i.bands.find? (fun b => b.name == n)).map (fun b => b.pix))).getD []

/-- `ee.Image.select(olds, news)`: pick the bands named in `olds` (in that
order) and rename them to the corresponding entry of `news`. -/
def EEImage.selectRename (i : EEImage) (olds news : List String) : EEImage :=
  { i with
    bands :=
      (olds.zip news).filterMap
        (fun pr =>
          (i.bands.find? (fun b => b.name == pr.1)).map
            (fun b => { b with name := pr.2 })) }

/-- `ee.Image.updateMask`: mask every pixel of every band wherever the mask
band is masked or zero. -/
def EEImage.updateMask (i : EEImage) (mask : List (Option Rat)) : EEImage :=
  { i with
    bands :=
      i.bands.map
        (fun b =>
          { b with
            pix :=
              List.zipWith
                (fun p m =>
                  match m with
                  | some mv => if mv ≠ 0 then p else none
                  | none => none)
                b.pix mask }) }

/-- `ee.Image.rename`: positionally rename the bands. -/
def EEImage.renameBands (i : EEImage) (ns : List String) : EEImage :=
  { i with bands := (i.bands.zip ns).map (fun bn => { bn.1 with name := bn.2 }) }

/-- `ee.Image.set("system:time_start", t)`. -/
def EEImage.setTime (i : EEImage) (t : Int) : EEImage :=
  { i with time := t }

/-- `ee.Image.addBands`: append the bands of another image. -/
def EEImage.addBands (i o : EEImage) : EEImage :=
  { i with bands := i.bands ++ o.bands }

/-- `ee.Image.clip`: restrict the footprint to the given geometry. -/
def EEImage.clipG (i : EEImage) (g : Geom) : EEImage :=
  { i with footprint := Geom.inter i.footprint g }

/-- `ee.Image.multiply(ee.Image.constant cs)`: band-wise multiplication by
per-band constants, pairing bands positionally. -/
def EEImage.imgMul (i : EEImage) (cs : List Rat) : EEImage :=
  { i with
    bands :=
      (i.bands.zip cs).map
        (fun bc => { bc.1 with pix := bc.1.pix.map (Option.map (fun v => v * bc.2)) }) }

/-- `ee.Image.add(ee.Image.constant cs)`: band-wise addition of per-band
constants, pairing bands positionally. -/
def EEImage.imgAdd (i : EEImage) (cs : List Rat) : EEImage :=
  { i with
    bands :=
      (i.bands.zip cs).map
        (fun bc => { bc.1 with pix := bc.1.pix.map (Option.map (fun v => v + bc.2)) }) }

/-- `ee.Filter.listContains(prop, v)` evaluated on one image: the image has
the list-valued property `prop` and its list contains `v`. -/
def EEImage.hasListProp (i : EEImage) (prop v : String) : Bool :=
  (((i.listProps.find? (fun kv => kv.1 == prop)).map (fun kv => kv.2.contains v))).getD false

/-- Whether the image has a band of each of the given names. -/
def EEImage.hasAllBands (i : EEImage) (ns : List String) : Bool :=
  ns.all (fun n => i.bands.any (fun b => b.name == n))

/-- The remote catalog: maps an asset id to the raw image collection
(`ee.ImageCollection(asset_id)`). -/
abbrev Catalog := String → List EEImage

/-- `ee.ImageCollection.filterBounds`: keep images whose footprint
intersects the region. -/
def icFilterBounds (ic : List EEImage) (g : Geom) : List EEImage :=
  ic.filter (fun i => i.footprint.intersectsB g)

/-- `ee.ImageCollection.filterDate t1 t2`: keep images whose timestamp is
in `[t1, t2)`. -/
def icFilterDate (ic : List EEImage) (t1 t2 : Int) : List EEImage :=
  ic.filter (fun i => decide (t1 ≤ i.time ∧ i.time < t2))

/-- `ee.ImageCollection.sort("system:time_start")`: sort ascending by
timestamp. -/
def icSortTime (ic : List EEImage) : List EEImage :=
  List.insertionSort (fun a b => a.time ≤ b.time) ic

/-- Pixel values available at band position `k`, pixel index `i`, across a
collection (unmasked ones only), in collection order. -/
def pixelsAt (ic : List EEImage) (k i : Nat) : List Rat :=
  ic.filterMap (fun img => (img.bands[k]?).bind (fun b => (b.pix[i]?).bind id))

/-- `ee.ImageCollection.mosaic`: band structure of the first image; each
pixel takes the last unmasked value in collection order; footprint is the
union of the footprints. -/
def icMosaic (ic : List EEImage) : EEImage :=
  match ic with
  | [] => emptyImage
  | first :: _ =>
    { time := 0,
      footprint := geomUnionAll (ic.map (fun i => i.footprint)),
      bands :=
        first.bands.enum.map
          (fun kb =>
            { name := kb.2.name,
              pix :=
                (List.range kb.2.pix.length).map
                  (fun i => (pixelsAt ic kb.1 i).getLast?) }),
      listProps := [] }

/-- An Earth Engine reducer: a name (used to suffix output band names) and
the reduction of a list of unmasked pixel values. -/
structure Reducer where
  rname : String
  app : List Rat → Option Rat

/-- The default `"mean"` reducer: exact rational mean, masked when no
values are present. -/
def meanReducer : Reducer :=
  { rname := "mean",
    app := fun vals => if vals.isEmpty then none else some (vals.sum / (vals.length : Rat)) }

/-- `ee.ImageCollection.reduce`: reduce per band position and pixel across
the collection.  Output band names get the reducer suffix; the result is
unbounded until clipped. -/
def icReduce (r : Reducer) (ic : List EEImage) : EEImage :=
  match ic with
  | [] => { time := 0, footprint := Geom.unbounded, bands := [], listProps := [] }
  | first :: _ =>
    { time := 0,
      footprint := Geom.unbounded,
      bands :=
        first.bands.enum.map
          (fun kb =>
            { name := kb.2.name ++ "_" ++ r.rname,
              pix :=
                (List.range kb.2.pix.length).map
                  (fun i => r.app (pixelsAt ic kb.1 i)) }),
      listProps := [] }

/-- `ee.List.distinct`: remove duplicates keeping the first occurrence. -/
def eeDistinctAux [DecidableEq α] (seen : List α) : List α → List α
  | [] => []
  | x :: xs => if x ∈ seen then eeDistinctAux seen xs else x :: eeDistinctAux (x :: seen) xs

/-- `ee.List.distinct` starting from nothing seen. -/
def eeDistinct [DecidableEq α] (l : List α) : List α :=
  eeDistinctAux [] l

/-- Milliseconds in one day, as used by `Dataset.join` and day advancing. -/
def dayMillis : Int := 1000 * 60 * 60 * 24

/-- Formatting a timestamp as a `YYYY-MM-dd` date, modelled as the day
number of the timestamp. -/
def dateOfTime (t : Int) : Int := Int.fdiv t dayMillis

/-- `ee.Date(d).millis()` for a calendar date `d` (a day number): the
millisecond timestamp of the start of that day. -/
def millisOfDate (d : Int) : Int := d * dayMillis

/-- Modelled from the spec: `decorators.carry_metadata` (module
`hydrafloods.decorators`, not under `src/`) wraps an image-to-image
function so that the result keeps the input's `system:time_start`
metadata. -/
def carry_metadata (f : EEImage → EEImage) (img : EEImage) : EEImage :=
  { f img with time := img.time }

/-- Modelled from the spec: `geeutils.get_geoms` (module
`hydrafloods.geeutils`, not under `src/`) maps an image to (a feature
holding) its footprint geometry. -/
def get_geoms (i : EEImage) : Geom := i.footprint

/-- Modelled from the spec: `geeutils.extract_bits` (module
`hydrafloods.geeutils`, not under `src/`) extracts the bit range
`[s, e]` of an integral QA pixel value. -/
def extract_bits (v : Rat) (s e : Nat) : Rat :=
  (((Int.floor v) / ((2 : Int) ^ s)) % ((2 : Int) ^ (e - s + 1)) : Int)

/-- `geeutils.extract_bits` applied pixel-wise to a band. -/
def ebBits (xs : List (Option Rat)) (s e : Nat) : List (Option Rat) :=
  xs.map (Option.map (fun v => extract_bits v s e))

/-- The band-name harmonization table `Dataset.BANDREMAP` (constant per
instance, so modelled as a top-level map from key to band-name list). -/
def BANDREMAP : String → List String
  | "landsat7" => ["B1", "B2", "B3", "B4", "B5", "B7"]
  | "landsat8" => ["B2", "B3", "B4", "B5", "B6", "B7"]
  | "viirs" => ["M2", "M4", "I1", "I2", "I3", "M11"]
  | "sen2" => ["B2", "B3", "B4", "B8", "B11", "B12"]
  | "modis" =>
    ["sur_refl_b03", "sur_refl_b04", "sur_refl_b01",
     "sur_refl_b02", "sur_refl_b06", "sur_refl_b07"]
  | "new" => ["blue", "green", "red", "nir", "swir1", "swir2"]
  | _ => []

/-- The `Dataset` object: constructor arguments, the optional band-pass
coefficients `gain`/`bias` (unset unless a subclass constructor sets them),
and the wrapped image collection. -/
structure Dataset where
  region : Geom
  start_time : Int
  end_time : Int
  asset_id : String
  use_qa : Bool
  gain : Option (List Rat)
  bias : Option (List Rat)
  collection : List EEImage
deriving Repr, DecidableEq

/-- `Dataset.__init__`: filter the named catalog collection by region then
by time window, then map the class's `qa` method over it when `use_qa` is
set.  `qa` is the class's `qa` method when the class defines one, `none`
otherwise; accessing a missing `qa` raises `AttributeError`, modelled as
`Except.error`. -/
def Dataset.init (cat : Catalog) (qa : Option (EEImage → EEImage)) (region : Geom)
    (start_time end_time : Int) (asset_id : String) (use_qa : Bool) :
    Except String Dataset :=
  let imgcollection := icFilterDate (icFilterBounds (cat asset_id) region) start_time end_time
  if use_qa then
    match qa with
    | some f =>
      Except.ok
        { region := region, start_time := start_time, end_time := end_time,
          asset_id := asset_id, use_qa := use_qa, gain := none, bias := none,
          collection := imgcollection.map f }
    | none => Except.error "AttributeError: qa() method is not defined"
  else
    Except.ok
      { region := region, start_time := start_time, end_time := end_time,
        asset_id := asset_id, use_qa := use_qa, gain := none, bias := none,
        collection := imgcollection }

/-- `Dataset.copy`: `copy.deepcopy`, the identity on the value model. -/
def Dataset.copy (d : Dataset) : Dataset := d

/-- `Dataset.apply_func`: map a function over the collection, in place or on
a copy.  The result pair is `(returned value, new state of the receiver)`. -/
def Dataset.apply_func (d : Dataset) (func : EEImage → EEImage) (inplace : Bool) :
    Option Dataset × Dataset :=
  if inplace then (none, { d with collection := d.collection.map func })
  else (some { d.copy with collection := d.collection.map func }, d)

/-- `Dataset.clip_to_region`: clip every image to `self.region` (carrying
metadata), in place or on a copy. -/
def Dataset.clip_to_region (d : Dataset) (inplace : Bool) : Option Dataset × Dataset :=
  let clip := carry_metadata (fun img => img.clipG d.region)
  if inplace then (none, { d with collection := d.collection.map clip })
  else (some { d.copy with collection := d.collection.map clip }, d)

/-- `Dataset.merge`: concatenate the two collections and sort by
`system:time_start`. -/
def Dataset.merge (d other : Dataset) (inplace : Bool) : Option Dataset × Dataset :=
  let merged := icSortTime (d.collection ++ other.collection)
  if inplace then (none, { d with collection := merged })
  else (some { d.copy with collection := merged }, d)

/-- The join condition of `Dataset.join`: timestamps within one day
(`ee.Filter.maxDifference`) and intersecting footprints
(`ee.Filter.intersects`). -/
def joinCond (i j : EEImage) : Bool :=
  decide ((i.time - j.time).natAbs ≤ 1000 * 60 * 60 * 24) &&
    i.footprint.intersectsB j.footprint

/-- `ee.Join.saveAll` applied to two collections: each primary image paired
with the list of matching secondary images; primaries with no match are
dropped. -/
def joinSaveAll (primary secondary : List EEImage)
    (cond : EEImage → EEImage → Bool) : List (EEImage × List EEImage) :=
  (primary.map (fun i => (i, secondary.filter (fun j => cond i j)))).filter
    (fun p => !p.2.isEmpty)

/-- The closure `_merge` of `Dataset.join`: mosaic the saved matches, add
the mosaic as bands, and clip to the overlap of the image's geometry with
the union of the matches' geometries. -/
def joinMergeImg (img : EEImage) (saved : List EEImage) : EEImage :=
  let join_geom := geomUnionAll (saved.map get_geoms)
  let overlap := Geom.inter img.footprint join_geom
  (img.addBands (icMosaic saved)).clipG overlap

/-- `Dataset.join`: save-all join of the two collections under `joinCond`,
then `_merge` over the results. -/
def Dataset.join (d other : Dataset) (inplace : Bool) : Option Dataset × Dataset :=
  let joined :=
    (joinSaveAll d.collection other.collection joinCond).map (fun p => joinMergeImg p.1 p.2)
  if inplace then (none, { d with collection := joined })
  else (some { d.copy with collection := joined }, d)

/-- The closure `_aggregation` of `Dataset.aggregate_time` for one date `d`
(a day number): reduce the images of `[d, d + period days)`, rename to the
given band names, stamp with the start of day `d`, and clip to the union of
the contributing footprints when `clip_to_area` is set. -/
def aggregationStep (coll : List EEImage) (band_names : List String)
    (period : Int) (r : Reducer) (clip_to_area : Bool) (d : Int) : EEImage :=
  let t1 := millisOfDate d
  let t2 := t1 + period * dayMillis
  let img := ((icReduce r (icFilterDate coll t1 t2)).renameBands band_names).setTime t1
  let geom := geomUnionAll ((icFilterDate coll t1 t2).map get_geoms)
  if clip_to_area then img.clipG geom else img

/-- `Dataset.aggregate_time`: aggregate the collection over the given dates
(day numbers), defaulting to the distinct dates present in the
collection. -/
def Dataset.aggregate_time (d : Dataset) (dates : Option (List Int)) (period : Int)
    (r : Reducer) (clip_to_area inplace : Bool) : Option Dataset × Dataset :=
  let datesL : List Int :=
    match dates with
    | none => eeDistinct (d.collection.map (fun (i : EEImage) => dateOfTime i.time))
    | some ds => ds
  let band_names := (d.collection.headD emptyImage).bandNames
  let out_coll := datesL.map (aggregationStep d.collection band_names period r clip_to_area)
  if inplace then (none, { d with collection := out_coll })
  else (some { d.copy with collection := out_coll }, d)

/-- The body of `Dataset.band_pass_adjustment` with the gain and bias made
explicit: band-wise multiply, add, and restamp with the input's time. -/
def band_pass_adjust (g b : List Rat) (img : EEImage) : EEImage :=
  carry_metadata (fun (i : EEImage) => ((i.imgMul g).imgAdd b).setTime i.time) img

/-- `Dataset.band_pass_adjustment`: applies the affine band transformation
when `self.gain` and `self.bias` are set; accessing them otherwise is a
Python `AttributeError`, modelled as `none`. -/
def Dataset.band_pass_adjustment (d : Dataset) (img : EEImage) : Option EEImage :=
  match d.gain, d.bias with
  | some g, some b => some (band_pass_adjust g b img)
  | _, _ => none

/-- `Sentinel1.qa`: keep pixels whose incidence angle is strictly between
30 and 45 degrees. -/
def Sentinel1.qa (img : EEImage) : EEImage :=
  carry_metadata
    (fun (i : EEImage) =>
      let angles := i.bandPix "angle"
      i.updateMask (pixAnd (pixLt angles 45) (pixGt angles 30)))
    img

/-- `Viirs.qa`: mask clouds (QF1 bits 2-3), shadows (QF2 bit 3) and high
sensor zenith; a snow mask is computed but not combined into the mask. -/
def Viirs.qa (img : EEImage) : EEImage :=
  carry_metadata
    (fun (i : EEImage) =>
      let cloudMask := pixLt (ebBits (i.bandPix "QF1") 2 3) 1
      let shadowMask := pixNot (ebBits (i.bandPix "QF2") 3 3)
      let snowMask := pixNot (ebBits (i.bandPix "QF2") 5 5)
      let sensorZenith := pixLt (pixAbs (i.bandPix "SensorZenith")) 6000
      i.updateMask (pixAnd (pixAnd cloudMask shadowMask) sensorZenith))
    img

/-- `Modis.qa`: mask clouds (state_1km bits 10-11), shadows (bit 2), snow
(bit 12) and high sensor zenith. -/
def Modis.qa (img : EEImage) : EEImage :=
  carry_metadata
    (fun (i : EEImage) =>
      let qa := i.bandPix "state_1km"
      let cloudMask := pixLt (ebBits qa 10 11) 1
      let shadowMask := pixNot (ebBits qa 2 2)
      let snowMask := pixNot (ebBits qa 12 12)
      let sensorZenith := pixLt (pixAbs (i.bandPix "SensorZenith")) 6000
      i.updateMask (pixAnd (pixAnd (pixAnd cloudMask shadowMask) snowMask) sensorZenith))
    img

/-- `Landsat8.qa`: mask wherever the cloud (bit 5), shadow (bit 3) or snow
(bit 4) flag of `pixel_qa` is set. -/
def Landsat8.qa (img : EEImage) : EEImage :=
  carry_metadata
    (fun (i : EEImage) =>
      let qa_band := i.bandPix "pixel_qa"
      let qaCloud := pixEq (ebBits qa_band 5 5) 0
      let qaShadow := pixEq (ebBits qa_band 3 3) 0
      let qaSnow := pixEq (ebBits qa_band 4 4) 0
      i.updateMask (pixAnd (pixAnd qaCloud qaShadow) qaSnow))
    img

/-- `Landsat7.qa`: the snow flag band is computed but commented out of the
mask, so only the cloud (bit 5) and shadow (bit 3) flags mask pixels. -/
def Landsat7.qa (img : EEImage) : EEImage :=
  carry_metadata
    (fun (i : EEImage) =>
      let qa_band := i.bandPix "pixel_qa"
      let qaCloud := pixEq (ebBits qa_band 5 5) 0
      let qaShadow := pixEq (ebBits qa_band 3 3) 0
      let qaSnow := pixEq (ebBits qa_band 4 4) 0
      i.updateMask (pixAnd qaCloud qaShadow))
    img

/-- `Sentinel2.qa`: keep pixels whose scene classification (SCL) is in
[4, 6]. -/
def Sentinel2.qa (img : EEImage) : EEImage :=
  carry_metadata
    (fun (i : EEImage) =>
      let sclImg := i.bandPix "SCL"
      i.updateMask (pixAnd (pixGte sclImg 4) (pixLte sclImg 6)))
    img

/-- `Sentinel1.__init__`: the base constructor with `Sentinel1.qa`, then an
unconditional filter keeping images whose
`transmitterReceiverPolarisation` list contains `"VH"`.  No band renaming
is performed. -/
def Sentinel1.init (cat : Catalog) (region : Geom) (start_time end_time : Int)
    (asset_id : String) (use_qa : Bool) : Except String Dataset :=
  (Dataset.init cat (some Sentinel1.qa) region start_time end_time asset_id use_qa).map
    (fun d =>
      { d with
        collection :=
          d.collection.filter
            (fun (i : EEImage) => i.hasListProp "transmitterReceiverPolarisation" "VH") })

/-- `Viirs.__init__`: the base constructor with `Viirs.qa`, renaming the
VIIRS bands to the common names, with an optional band-pass adjustment to
Landsat8. -/
def Viirs.init (cat : Catalog) (region : Geom) (start_time end_time : Int)
    (asset_id : String) (apply_band_adjustment use_qa : Bool) : Except String Dataset :=
  (Dataset.init cat (some Viirs.qa) region start_time end_time asset_id use_qa).map
    (fun d =>
      let coll :=
        d.collection.map (fun (i : EEImage) => i.selectRename (BANDREMAP "viirs") (BANDREMAP "new"))
      if apply_band_adjustment then
        let g : List Rat := [0.68328, 0.66604, 0.78901, 0.95324, 0.98593, 0.88941]
        let b : List Rat :=
          ([0.016728, 0.030814, 0.023199, 0.036571, 0.026923, 0.021615] : List Rat).map
            (fun x => x * 10000)
        { d with gain := some g, bias := some b,
                 collection := coll.map (band_pass_adjust g b) }
      else { d with collection := coll })

/-- `Modis.__init__`: the base constructor with `Modis.qa`, renaming the
MODIS bands to the common names and clipping to the region in place. -/
def Modis.init (cat : Catalog) (region : Geom) (start_time end_time : Int)
    (asset_id : String) (use_qa : Bool) : Except String Dataset :=
  (Dataset.init cat (some Modis.qa) region start_time end_time asset_id use_qa).map
    (fun d =>
      let d1 :=
        { d with
          collection :=
            d.collection.map (fun (i : EEImage) => i.selectRename (BANDREMAP "modis") (BANDREMAP "new")) }
      (d1.clip_to_region true).2)

/-- `Landsat8.__init__`: the base constructor with `Landsat8.qa`, renaming
the Landsat-8 bands to the common names. -/
def Landsat8.init (cat : Catalog) (region : Geom) (start_time end_time : Int)
    (asset_id : String) (use_qa : Bool) : Except String Dataset :=
  (Dataset.init cat (some Landsat8.qa) region start_time end_time asset_id use_qa).map
    (fun d =>
      { d with
        collection :=
          d.collection.map (fun (i : EEImage) => i.selectRename (BANDREMAP "landsat8") (BANDREMAP "new")) })

/-- `Landsat7.__init__`: the base constructor with `Landsat7.qa`, renaming
the Landsat-7 bands to the common names, with an optional band-pass
adjustment to Landsat8. -/
def Landsat7.init (cat : Catalog) (region : Geom) (start_time end_time : Int)
    (asset_id : String) (apply_band_adjustment use_qa : Bool) : Except String Dataset :=
  (Dataset.init cat (some Landsat7.qa) region start_time end_time asset_id use_qa).map
    (fun d =>
      let coll :=
        d.collection.map (fun (i : EEImage) => i.selectRename (BANDREMAP "landsat7") (BANDREMAP "new"))
      if apply_band_adjustment then
        let g : List Rat := [0.8474, 0.8483, 0.9047, 0.8462, 0.8937, 0.9071]
        let b : List Rat :=
          ([0.0003, 0.0088, 0.0061, 0.0412, 0.0254, 0.0172] : List Rat).map
            (fun x => x * 10000)
        { d with gain := some g, bias := some b,
                 collection := coll.map (band_pass_adjust g b) }
      else { d with collection := coll })

/-- `Sentinel2.__init__`: the base constructor with `Sentinel2.qa`, renaming
the Sentinel-2 bands to the common names, with an optional band-pass
adjustment to Landsat8. -/
def Sentinel2.init (cat : Catalog) (region : Geom) (start_time end_time : Int)
    (asset_id : String) (apply_band_adjustment use_qa : Bool) : Except String Dataset :=
  (Dataset.init cat (some Sentinel2.qa) region start_time end_time asset_id use_qa).map
    (fun d =>
      let coll :=
        d.collection.map (fun (i : EEImage) => i.selectRename (BANDREMAP "sen2") (BANDREMAP "new"))
      if apply_band_adjustment then
        let g : List Rat := [0.9778, 1.0053, 0.9765, 0.9983, 0.9987, 1.003]
        let b : List Rat :=
          ([-0.00411, -0.00093, 0.00094, -0.0001, -0.0015, -0.0012] : List Rat).map
            (fun x => x * 10000)
        { d with gain := some g, bias := some b,
                 collection := coll.map (band_pass_adjust g b) }
      else { d with collection := coll })

/-- Concrete Sentinel-1 style image used as the counterexample input for
the band-harmonization claim. -/
def s1CexImage : EEImage :=
  { time := 0,
    footprint := Geom.cells [(0, 0)],
    bands :=
      [{ name := "VV", pix := [some 3] },
       { name := "VH", pix := [some 2] },
       { name := "angle", pix := [some 40] }],
    listProps := [("transmitterReceiverPolarisation", ["VV", "VH"])] }

/-- A one-pixel image with a `pixel_qa` band of value `v` and a `blue` data
band, used to probe the Landsat QA masks. -/
def qaTestImage (v : Rat) : EEImage :=
  { time := 0,
    footprint := Geom.cells [(0, 0)],
    bands :=
      [{ name := "pixel_qa", pix := [some v] },
       { name := "blue", pix := [some 1] }],
    listProps := [] }

/-- Whether the single pixel of the `blue` band survived masking. -/
def keptAfterQA (i : EEImage) : Bool :=
  ((i.bandPix "blue").headD none).isSome

/-- A one-pixel image carrying one band of value 1 for each given name,
used as concrete witness input for the harmonization claim. -/
def optTestImage (ns : List String) : EEImage :=
  { time := 0,
    footprint := Geom.cells [(0, 0)],
    bands := ns.map (fun n => { name := n, pix := [some 1] }),
    listProps := [] }

instance : IsTotal EEImage (fun a b => a.time ≤ b.time) :=
  ⟨fun a b => Int.le_total a.time b.time⟩

instance : IsTrans EEImage (fun a b => a.time ≤ b.time) :=
  ⟨fun _ _ _ hab hbc => le_trans hab hbc⟩

/-- C1: for every `Dataset` constructed with `(region, start_time,
end_time, asset_id, use_qa)` (and whose class defines a `qa` method `f`),
the wrapped collection equals the named remote collection filtered first by
`filterBounds` with the region and then by `filterDate` with the time
window, with `f` mapped over every image of the result if and only if
`use_qa` is true. -/
theorem claim_C1_init_filters_then_optional_qa
    (cat : Catalog) (f : EEImage → EEImage) (region : Geom)
    (start_time end_time : Int) (asset_id : String) (use_qa : Bool) :
    ∃ d : Dataset,
      Dataset.init cat (some f) region start_time end_time asset_id use_qa = Except.ok d ∧
      d.collection =
        (if use_qa then
          (icFilterDate (icFilterBounds (cat asset_id) region) start_time end_time).map f
         else
          icFilterDate (icFilterBounds (cat asset_id) region) start_time end_time) := by
  cases use_qa with
  | false => exact ⟨_, rfl, rfl⟩
  | true => exact ⟨_, rfl, rfl⟩

/-- C3: `Dataset` construction fails with `AttributeError` if and only if
`use_qa` is true and the class defines no `qa` method; with `use_qa` false
the qa check is skipped and construction always succeeds. -/
theorem claim_C3_init_error_iff_use_qa_without_qa
    (cat : Catalog) (qa : Option (EEImage → EEImage)) (region : Geom)
    (start_time end_time : Int) (asset_id : String) (use_qa : Bool) :
    (∃ msg, Dataset.init cat qa region start_time end_time asset_id use_qa =
      Except.error msg) ↔ (use_qa = true ∧ qa = none) := by
  cases use_qa <;> cases qa <;> simp [Dataset.init]

/-- C2: every composition operation called with `inplace = False` returns a
new `Dataset` (a copy of the receiver carrying the resulting collection)
and leaves the receiver, including its collection, unchanged; called with
`inplace = True` it reassigns the receiver's collection to the same result
and returns `None`. -/
theorem claim_C2_inplace_vs_functional
    (d other : Dataset) (f : EEImage → EEImage) (dates : Option (List Int))
    (period : Int) (r : Reducer) (clip_to_area : Bool) :
    (∃ c, d.apply_func f false = (some { d with collection := c }, d) ∧
          d.apply_func f true = (none, { d with collection := c })) ∧
    (∃ c, d.clip_to_region false = (some { d with collection := c }, d) ∧
          d.clip_to_region true = (none, { d with collection := c })) ∧
    (∃ c, d.merge other false = (some { d with collection := c }, d) ∧
          d.merge other true = (none, { d with collection := c })) ∧
    (∃ c, d.join other false = (some { d with collection := c }, d) ∧
          d.join other true = (none, { d with collection := c })) ∧
    (∃ c, d.aggregate_time dates period r clip_to_area false =
            (some { d with collection := c }, d) ∧
          d.aggregate_time dates period r clip_to_area true =
            (none, { d with collection := c })) :=
  ⟨⟨_, rfl, rfl⟩, ⟨_, rfl, rfl⟩, ⟨_, rfl, rfl⟩, ⟨_, rfl, rfl⟩, ⟨_, rfl, rfl⟩⟩

/-- C6: `a.merge(b)` produces a collection holding exactly the images of
`a.collection` together with those of `b.collection` (a permutation of
their concatenation), sorted ascending by `system:time_start`. -/
theorem claim_C6_merge_is_sorted_union (a b : Dataset) :
    ∃ c, a.merge b false = (some { a with collection := c }, a) ∧
         a.merge b true = (none, { a with collection := c }) ∧
         c.Perm (a.collection ++ b.collection) ∧
         List.Sorted (fun x y : EEImage => x.time ≤ y.time) c := by
  refine ⟨icSortTime (a.collection ++ b.collection), rfl, rfl, ?_, ?_⟩
  · exact List.perm_insertionSort _ _
  · exact List.sorted_insertionSort _ _

/-- C8: with `gain` and `bias` set, `band_pass_adjustment` returns the
image multiplied band-wise by the gain and incremented by the bias, with
`system:time_start` equal to that of the input image. -/
theorem claim_C8_band_pass_is_affine_and_keeps_time
    (d : Dataset) (g b : List Rat) (img : EEImage)
    (hg : d.gain = some g) (hb : d.bias = some b) :
    d.band_pass_adjustment img = some (((img.imgMul g).imgAdd b).setTime img.time) := by
  unfold Dataset.band_pass_adjustment
  rw [hg, hb]
  rfl

/-- Witness for C8 at a concrete dataset and image. -/
theorem claim_C8_band_pass_is_affine_and_keeps_time_witness :
    Dataset.band_pass_adjustment
        { region := Geom.cells [], start_time := 0, end_time := 1, asset_id := "a",
          use_qa := false, gain := some [2], bias := some [3], collection := [] }
        { time := 5, footprint := Geom.cells [], bands := [{ name := "blue", pix := [some 7] }],
          listProps := [] } =
      some
        ((((⟨5, Geom.cells [], [⟨"blue", [some 7]⟩], []⟩ : EEImage).imgMul [2]).imgAdd
            [3]).setTime 5) :=
  claim_C8_band_pass_is_affine_and_keeps_time _ [2] [3] _ rfl rfl

/-- C9: every Sentinel-1 dataset's collection, immediately after
construction and for either value of `use_qa`, contains only images whose
`transmitterReceiverPolarisation` list contains `"VH"`. -/
theorem claim_C9_sentinel1_vh_filter_unconditional
    (cat : Catalog) (region : Geom) (start_time end_time : Int)
    (asset_id : String) (use_qa : Bool) :
    ∃ d, Sentinel1.init cat region start_time end_time asset_id use_qa = Except.ok d ∧
      ∀ img ∈ d.collection,
        img.hasListProp "transmitterReceiverPolarisation" "VH" = true := by
  cases use_qa with
  | false =>
    refine ⟨_, rfl, ?_⟩
    intro img hmem
    exact @List.of_mem_filter EEImage
      (fun i : EEImage => i.hasListProp "transmitterReceiverPolarisation" "VH") img _ hmem
  | true =>
    refine ⟨_, rfl, ?_⟩
    intro img hmem
    exact @List.of_mem_filter EEImage
      (fun i : EEImage => i.hasListProp "transmitterReceiverPolarisation" "VH") img _ hmem

/-- A filtered list is nonempty exactly when some element satisfies the
predicate. -/
theorem not_isEmpty_filter_eq_any {α : Type} (p : α → Bool) (l : List α) :
    (!(l.filter p).isEmpty) = l.any p := by
  induction l with
  | nil => rfl
  | cons x xs ih =>
    cases hx : p x <;> simp [List.filter_cons, hx, ← ih]

/-- Pairing each element with derived data, dropping empty data, and then
consuming the pairs is the same as filtering on nonemptiness and consuming
directly. -/
theorem map_filter_pairs {α β γ : Type} (l : List α) (g : α → List β) (h : α → List β → γ) :
    ((l.map (fun i => (i, g i))).filter (fun p => !p.2.isEmpty)).map (fun p => h p.1 p.2) =
      (l.filter (fun i => !(g i).isEmpty)).map (fun i => h i (g i)) := by
  induction l with
  | nil => rfl
  | cons x xs ih =>
    cases hx : (g x).isEmpty <;> simp [List.filter_cons, hx, ih]

/-- C5: `a.join(b)` keeps exactly the images of `a.collection` having some
image of `b.collection` within 86,400,000 ms and with intersecting
footprint; each kept image gets the mosaic of its matches added as bands
and is clipped to the intersection of its footprint with the union of the
matches' footprints. -/
theorem claim_C5_join_characterization (a b : Dataset) :
    ∃ c, a.join b false = (some { a with collection := c }, a) ∧
         a.join b true = (none, { a with collection := c }) ∧
         c = (a.collection.filter
                (fun i => b.collection.any (fun j =>
                  decide ((i.time - j.time).natAbs ≤ 86400000) &&
                    i.footprint.intersectsB j.footprint))).map
             (fun i =>
               (i.addBands
                   (icMosaic (b.collection.filter (fun j =>
                     decide ((i.time - j.time).natAbs ≤ 86400000) &&
                       i.footprint.intersectsB j.footprint)))).clipG
                 (Geom.inter i.footprint
                   (geomUnionAll
                     ((b.collection.filter (fun j =>
                        decide ((i.time - j.time).natAbs ≤ 86400000) &&
                          i.footprint.intersectsB j.footprint)).map
                       (fun m => m.footprint))))) := by
  have hjc : ∀ i j : EEImage, joinCond i j =
      (decide ((i.time - j.time).natAbs ≤ 86400000) &&
        i.footprint.intersectsB j.footprint) := by
    intro i j
    rfl
  refine ⟨_, rfl, rfl, ?_⟩
  show (joinSaveAll a.collection b.collection joinCond).map
      (fun p => joinMergeImg p.1 p.2) = _
  unfold joinSaveAll
  rw [map_filter_pairs]
  congr 1
  · have hfeq : ∀ x ∈ a.collection,
        (!(List.filter (fun j => joinCond x j) b.collection).isEmpty) =
          b.collection.any (fun j =>
            decide ((x.time - j.time).natAbs ≤ 86400000) &&
              x.footprint.intersectsB j.footprint) := by
      intro x _
      rw [not_isEmpty_filter_eq_any]
      simp only [hjc]
    exact List.filter_congr hfeq

/-- C7: with `dates = None`, `aggregate_time` aggregates over exactly the
distinct calendar dates of the collection; for each date the output image
is the reduction of the images with time in `[d, d + period days)`, renamed
to the band names of the collection's first image, stamped with the
millisecond value of `d`, and clipped to the union of the contributing
footprints exactly when `clip_to_area` is true. -/
theorem claim_C7_aggregate_default_dates
    (d : Dataset) (period : Int) (r : Reducer) (clip_to_area : Bool) :
    ∃ c, d.aggregate_time none period r clip_to_area false =
           (some { d with collection := c }, d) ∧
         d.aggregate_time none period r clip_to_area true =
           (none, { d with collection := c }) ∧
         c = (eeDistinct (d.collection.map (fun i => dateOfTime i.time))).map
               (fun day =>
                 let sel := icFilterDate d.collection (millisOfDate day)
                   (millisOfDate day + period * dayMillis)
                 let img := ((icReduce r sel).renameBands
                   (d.collection.headD emptyImage).bandNames).setTime (millisOfDate day)
                 if clip_to_area then
                   img.clipG (geomUnionAll (sel.map (fun i => i.footprint)))
                 else img) := by
  exact ⟨_, rfl, rfl, rfl⟩

/-- C10: on a one-pixel image with QA value `v`, `Landsat7.qa` keeps the
pixel exactly when the cloud (bit 5) and shadow (bit 3) flags are clear,
regardless of the snow flag (bit 4); `Landsat8.qa` additionally requires
the snow flag to be clear.  At `v = 16` (snow flag only), Landsat-7 keeps
the pixel while Landsat-8 masks it. -/
theorem claim_C10_landsat7_ignores_snow_flag :
    (∀ v : Rat, keptAfterQA (Landsat7.qa (qaTestImage v)) =
        (decide (extract_bits v 5 5 = 0) && decide (extract_bits v 3 3 = 0))) ∧
    (∀ v : Rat, keptAfterQA (Landsat8.qa (qaTestImage v)) =
        (decide (extract_bits v 5 5 = 0) && decide (extract_bits v 3 3 = 0) &&
          decide (extract_bits v 4 4 = 0))) ∧
    keptAfterQA (Landsat7.qa (qaTestImage 16)) = true ∧
    keptAfterQA (Landsat8.qa (qaTestImage 16)) = false := by
  refine ⟨?_, ?_, by decide, by decide⟩
  · intro v
    by_cases h5 : extract_bits v 5 5 = 0 <;> by_cases h3 : extract_bits v 3 3 = 0 <;>
      simp [Landsat7.qa, qaTestImage, keptAfterQA, carry_metadata, EEImage.bandPix,
        EEImage.updateMask, ebBits, pixEq, pixAnd, List.find?, h5, h3]
  · intro v
    by_cases h5 : extract_bits v 5 5 = 0 <;> by_cases h3 : extract_bits v 3 3 = 0 <;>
      by_cases h4 : extract_bits v 4 4 = 0 <;>
      simp [Landsat8.qa, qaTestImage, keptAfterQA, carry_metadata, EEImage.bandPix,
        EEImage.updateMask, ebBits, pixEq, pixAnd, List.find?, h5, h3, h4]

/-- `any` over a mapped list tests the composed predicate. -/
theorem any_map_general {α β : Type} (f : α → β) (p : β → Bool) (l : List α) :
    (l.map f).any p = l.any (fun x => p (f x)) := by
  induction l with
  | nil => rfl
  | cons x xs ih => simp [List.any_cons, ih]

/-- Masking never changes the band names of an image. -/
theorem bandNames_updateMask (i : EEImage) (m : List (Option Rat)) :
    (i.updateMask m).bandNames = i.bandNames := by
  simp [EEImage.updateMask, EEImage.bandNames, List.map_map]

/-- `Viirs.qa` preserves band names. -/
theorem bandNames_qa_viirs (i : EEImage) : (Viirs.qa i).bandNames = i.bandNames :=
  bandNames_updateMask i _

/-- `Modis.qa` preserves band names. -/
theorem bandNames_qa_modis (i : EEImage) : (Modis.qa i).bandNames = i.bandNames :=
  bandNames_updateMask i _

/-- `Landsat8.qa` preserves band names. -/
theorem bandNames_qa_landsat8 (i : EEImage) : (Landsat8.qa i).bandNames = i.bandNames :=
  bandNames_updateMask i _

/-- `Landsat7.qa` preserves band names. -/
theorem bandNames_qa_landsat7 (i : EEImage) : (Landsat7.qa i).bandNames = i.bandNames :=
  bandNames_updateMask i _

/-- `Sentinel2.qa` preserves band names. -/
theorem bandNames_qa_sentinel2 (i : EEImage) : (Sentinel2.qa i).bandNames = i.bandNames :=
  bandNames_updateMask i _

/-- Selecting present bands under new names yields exactly the new
names. -/
theorem bandNames_selectRename (i : EEImage) :
    ∀ (olds news : List String), olds.length = news.length →
      (∀ o ∈ olds, ∃ b ∈ i.bands, b.name = o) →
      (i.selectRename olds news).bandNames = news := by
  intro olds
  induction olds with
  | nil =>
    intro news hlen h
    cases news with
    | nil => rfl
    | cons n ns => simp at hlen
  | cons o os ih =>
    intro news hlen h
    cases news with
    | nil => simp at hlen
    | cons n ns =>
      obtain ⟨b, hb, hbn⟩ := h o (List.mem_cons_self o os)
      have hfind : (i.bands.find? (fun bb => bb.name == o)).isSome := by
        rw [List.find?_isSome]
        exact ⟨b, hb, by simp [hbn]⟩
      obtain ⟨b0, hb0⟩ := Option.isSome_iff_exists.mp hfind
      have hstep : (i.selectRename (o :: os) (n :: ns)).bands =
          { b0 with name := n } :: (i.selectRename os ns).bands := by
        simp [EEImage.selectRename, List.zip_cons_cons, List.filterMap_cons, hb0]
      have htail := ih ns (by simpa using hlen)
        (fun o2 ho2 => h o2 (List.mem_cons_of_mem _ ho2))
      calc (i.selectRename (o :: os) (n :: ns)).bandNames
          = n :: (i.selectRename os ns).bandNames := by
            simp [EEImage.bandNames, hstep]
        _ = n :: ns := by rw [htail]

/-- `hasAllBands` gives a named band for every requested name. -/
theorem exists_band_of_hasAllBands (i : EEImage) (ns : List String)
    (h : i.hasAllBands ns = true) : ∀ o ∈ ns, ∃ b ∈ i.bands, b.name = o := by
  intro o ho
  have h2 := (List.all_eq_true.mp h) o ho
  obtain ⟨b, hb, hbn⟩ := List.any_eq_true.mp h2
  exact ⟨b, hb, by simpa using hbn⟩

/-- `hasAllBands` only depends on the band names. -/
theorem hasAllBands_congr (i j : EEImage) (h : i.bandNames = j.bandNames)
    (ns : List String) : i.hasAllBands ns = j.hasAllBands ns := by
  have key : ∀ k : EEImage,
      k.hasAllBands ns = ns.all (fun n => k.bandNames.any (fun m => m == n)) := by
    intro k
    unfold EEImage.hasAllBands EEImage.bandNames
    congr 1
    funext n
    rw [any_map_general]
  rw [key i, key j, h]

/-- Multiplying by at least as many constants as bands preserves band
names. -/
theorem bandNames_imgMul (i : EEImage) (cs : List Rat)
    (h : i.bands.length ≤ cs.length) : (i.imgMul cs).bandNames = i.bandNames := by
  have hfst : ((i.bands.zip cs).map Prod.fst).map (fun b => b.name) =
      i.bands.map (fun b => b.name) := by
    rw [List.map_fst_zip _ _ h]
  simp only [EEImage.imgMul, EEImage.bandNames]
  rw [← hfst, List.map_map, List.map_map]
  rfl

/-- The band count after `imgMul`. -/
theorem length_bands_imgMul (i : EEImage) (cs : List Rat) :
    (i.imgMul cs).bands.length = min i.bands.length cs.length := by
  simp [EEImage.imgMul]

/-- Adding at least as many constants as bands preserves band names. -/
theorem bandNames_imgAdd (i : EEImage) (cs : List Rat)
    (h : i.bands.length ≤ cs.length) : (i.imgAdd cs).bandNames = i.bandNames := by
  have hfst : ((i.bands.zip cs).map Prod.fst).map (fun b => b.name) =
      i.bands.map (fun b => b.name) := by
    rw [List.map_fst_zip _ _ h]
  simp only [EEImage.imgAdd, EEImage.bandNames]
  rw [← hfst, List.map_map, List.map_map]
  rfl

/-- The band-pass adjustment preserves band names when the coefficient
lists cover every band. -/
theorem bandNames_band_pass (g bs : List Rat) (i : EEImage)
    (hg : i.bands.length ≤ g.length) (hb : i.bands.length ≤ bs.length) :
    (band_pass_adjust g bs i).bandNames = i.bandNames := by
  have h1 : (i.imgMul g).bands.length ≤ bs.length := by
    rw [length_bands_imgMul]
    exact le_trans (min_le_left _ _) hb
  calc (band_pass_adjust g bs i).bandNames
      = ((i.imgMul g).imgAdd bs).bandNames := rfl
    _ = (i.imgMul g).bandNames := bandNames_imgAdd _ bs h1
    _ = i.bandNames := bandNames_imgMul i g hg

/-- The metadata-carrying clip closure preserves band names. -/
theorem bandNames_clip_carry (g : Geom) (i : EEImage) :
    (carry_metadata (fun img => img.clipG g) i).bandNames = i.bandNames := rfl

/-- Images of the region/time filtered base collection come from the
catalog. -/
theorem mem_catalog_of_mem_base (cat : Catalog) (aid : String) (region : Geom)
    (st et : Int) :
    ∀ i ∈ icFilterDate (icFilterBounds (cat aid) region) st et, i ∈ cat aid := by
  intro i h
  exact (List.mem_filter.mp ((List.mem_filter.mp h).1)).1

/-- Mapping a harmonizing `select` over images that expose all the source
bands yields only images with the six common band names. -/
theorem bandNames_select_map (l : List EEImage) (key : String)
    (hlen : (BANDREMAP key).length = (BANDREMAP "new").length)
    (hAll : ∀ i ∈ l, i.hasAllBands (BANDREMAP key) = true) :
    ∀ img ∈ l.map (fun i => i.selectRename (BANDREMAP key) (BANDREMAP "new")),
      img.bandNames = BANDREMAP "new" := by
  intro img hm
  obtain ⟨i, hi, rfl⟩ := List.mem_map.mp hm
  exact bandNames_selectRename i _ _ hlen (exists_band_of_hasAllBands i _ (hAll i hi))

/-- Counterexample to C4 as frozen: a Sentinel-1 dataset constructed with
the default flags keeps its SAR band names (`VV`, `VH`, `angle`) — the
constructor performs no renaming and `BANDREMAP` has no Sentinel-1
entry. -/
theorem claim_C4_sentinel1_not_harmonized_cex :
    ∃ d, Sentinel1.init (fun _ => [s1CexImage]) (Geom.cells [(0, 0)]) 0 1
        "COPERNICUS/S1_GRD" true = Except.ok d ∧
      ∃ img ∈ d.collection, img.bandNames ≠ BANDREMAP "new" := by
  refine ⟨_, rfl, ?_⟩
  decide

/-- C4 (amended): the five optical wrappers (Sentinel2, Landsat7, Landsat8,
Modis, Viirs) harmonize band names: whenever the catalog images expose the
sensor's six source bands, every image of the constructed collection
carries exactly the common names `blue, green, red, nir, swir1, swir2`.
Sentinel1 is excluded: it applies no renaming. -/
theorem claim_C4_amended_optical_harmonization :
    (∀ (cat : Catalog) (region : Geom) (st et : Int) (aid : String) (adj u : Bool),
      (∀ img ∈ cat aid, img.hasAllBands (BANDREMAP "sen2") = true) →
      ∃ d, Sentinel2.init cat region st et aid adj u = Except.ok d ∧
        ∀ img ∈ d.collection, img.bandNames = BANDREMAP "new") ∧
    (∀ (cat : Catalog) (region : Geom) (st et : Int) (aid : String) (adj u : Bool),
      (∀ img ∈ cat aid, img.hasAllBands (BANDREMAP "landsat7") = true) →
      ∃ d, Landsat7.init cat region st et aid adj u = Except.ok d ∧
        ∀ img ∈ d.collection, img.bandNames = BANDREMAP "new") ∧
    (∀ (cat : Catalog) (region : Geom) (st et : Int) (aid : String) (u : Bool),
      (∀ img ∈ cat aid, img.hasAllBands (BANDREMAP "landsat8") = true) →
      ∃ d, Landsat8.init cat region st et aid u = Except.ok d ∧
        ∀ img ∈ d.collection, img.bandNames = BANDREMAP "new") ∧
    (∀ (cat : Catalog) (region : Geom) (st et : Int) (aid : String) (u : Bool),
      (∀ img ∈ cat aid, img.hasAllBands (BANDREMAP "modis") = true) →
      ∃ d, Modis.init cat region st et aid u = Except.ok d ∧
        ∀ img ∈ d.collection, img.bandNames = BANDREMAP "new") ∧
    (∀ (cat : Catalog) (region : Geom) (st et : Int) (aid : String) (adj u : Bool),
      (∀ img ∈ cat aid, img.hasAllBands (BANDREMAP "viirs") = true) →
      ∃ d, Viirs.init cat region st et aid adj u = Except.ok d ∧
        ∀ img ∈ d.collection, img.bandNames = BANDREMAP "new") := by
  refine ⟨?_, ?_, ?_, ?_, ?_⟩
  · intro cat region st et aid adj u hAll
    have hbase : ∀ i ∈ icFilterDate (icFilterBounds (cat aid) region) st et,
        i.hasAllBands (BANDREMAP "sen2") = true :=
      fun i hi => hAll i (mem_catalog_of_mem_base cat aid region st et i hi)
    have hq : ∀ i ∈ (icFilterDate (icFilterBounds (cat aid) region) st et).map Sentinel2.qa,
        i.hasAllBands (BANDREMAP "sen2") = true := by
      intro i hi
      obtain ⟨i0, hi0, rfl⟩ := List.mem_map.mp hi
      rw [hasAllBands_congr _ i0 (bandNames_qa_sentinel2 i0)]
      exact hbase i0 hi0
    cases u with
    | false =>
      cases adj with
      | false =>
        refine ⟨_, rfl, ?_⟩
        intro img hm
        exact bandNames_select_map _ "sen2" rfl hbase img hm
      | true =>
        refine ⟨_, rfl, ?_⟩
        intro img hm
        obtain ⟨im1, him1, rfl⟩ := List.mem_map.mp hm
        have hsel := bandNames_select_map _ "sen2" rfl hbase im1 him1
        have hlen6 : im1.bands.length = 6 := by
          have hc := congrArg List.length hsel
          simpa [EEImage.bandNames, BANDREMAP] using hc
        refine Eq.trans (bandNames_band_pass _ _ im1 ?_ ?_) hsel
        · rw [hlen6]; simp
        · rw [hlen6]; simp
    | true =>
      cases adj with
      | false =>
        refine ⟨_, rfl, ?_⟩
        intro img hm
        exact bandNames_select_map _ "sen2" rfl hq img hm
      | true =>
        refine ⟨_, rfl, ?_⟩
        intro img hm
        obtain ⟨im1, him1, rfl⟩ := List.mem_map.mp hm
        have hsel := bandNames_select_map _ "sen2" rfl hq im1 him1
        have hlen6 : im1.bands.length = 6 := by
          have hc := congrArg List.length hsel
          simpa [EEImage.bandNames, BANDREMAP] using hc
        refine Eq.trans (bandNames_band_pass _ _ im1 ?_ ?_) hsel
        · rw [hlen6]; simp
        · rw [hlen6]; simp
  · intro cat region st et aid adj u hAll
    have hbase : ∀ i ∈ icFilterDate (icFilterBounds (cat aid) region) st et,
        i.hasAllBands (BANDREMAP "landsat7") = true :=
      fun i hi => hAll i (mem_catalog_of_mem_base cat aid region st et i hi)
    have hq : ∀ i ∈ (icFilterDate (icFilterBounds (cat aid) region) st et).map Landsat7.qa,
        i.hasAllBands (BANDREMAP "landsat7") = true := by
      intro i hi
      obtain ⟨i0, hi0, rfl⟩ := List.mem_map.mp hi
      rw [hasAllBands_congr _ i0 (bandNames_qa_landsat7 i0)]
      exact hbase i0 hi0
    cases u with
    | false =>
      cases adj with
      | false =>
        refine ⟨_, rfl, ?_⟩
        intro img hm
        exact bandNames_select_map _ "landsat7" rfl hbase img hm
      | true =>
        refine ⟨_, rfl, ?_⟩
        intro img hm
        obtain ⟨im1, him1, rfl⟩ := List.mem_map.mp hm
        have hsel := bandNames_select_map _ "landsat7" rfl hbase im1 him1
        have hlen6 : im1.bands.length = 6 := by
          have hc := congrArg List.length hsel
          simpa [EEImage.bandNames, BANDREMAP] using hc
        refine Eq.trans (bandNames_band_pass _ _ im1 ?_ ?_) hsel
        · rw [hlen6]; simp
        · rw [hlen6]; simp
    | true =>
      cases adj with
      | false =>
        refine ⟨_, rfl, ?_⟩
        intro img hm
        exact bandNames_select_map _ "landsat7" rfl hq img hm
      | true =>
        refine ⟨_, rfl, ?_⟩
        intro img hm
        obtain ⟨im1, him1, rfl⟩ := List.mem_map.mp hm
        have hsel := bandNames_select_map _ "landsat7" rfl hq im1 him1
        have hlen6 : im1.bands.length = 6 := by
          have hc := congrArg List.length hsel
          simpa [EEImage.bandNames, BANDREMAP] using hc
        refine Eq.trans (bandNames_band_pass _ _ im1 ?_ ?_) hsel
        · rw [hlen6]; simp
        · rw [hlen6]; simp
  · intro cat region st et aid u hAll
    have hbase : ∀ i ∈ icFilterDate (icFilterBounds (cat aid) region) st et,
        i.hasAllBands (BANDREMAP "landsat8") = true :=
      fun i hi => hAll i (mem_catalog_of_mem_base cat aid region st et i hi)
    cases u with
    | false =>
      refine ⟨_, rfl, ?_⟩
      intro img hm
      exact bandNames_select_map _ "landsat8" rfl hbase img hm
    | true =>
      refine ⟨_, rfl, ?_⟩
      intro img hm
      have hq : ∀ i ∈ (icFilterDate (icFilterBounds (cat aid) region) st et).map Landsat8.qa,
          i.hasAllBands (BANDREMAP "landsat8") = true := by
        intro i hi
        obtain ⟨i0, hi0, rfl⟩ := List.mem_map.mp hi
        rw [hasAllBands_congr _ i0 (bandNames_qa_landsat8 i0)]
        exact hbase i0 hi0
      exact bandNames_select_map _ "landsat8" rfl hq img hm
  · intro cat region st et aid u hAll
    have hbase : ∀ i ∈ icFilterDate (icFilterBounds (cat aid) region) st et,
        i.hasAllBands (BANDREMAP "modis") = true :=
      fun i hi => hAll i (mem_catalog_of_mem_base cat aid region st et i hi)
    cases u with
    | false =>
      refine ⟨_, rfl, ?_⟩
      intro img hm
      obtain ⟨im1, him1, rfl⟩ := List.mem_map.mp hm
      rw [bandNames_clip_carry]
      exact bandNames_select_map _ "modis" rfl hbase im1 him1
    | true =>
      refine ⟨_, rfl, ?_⟩
      intro img hm
      have hq : ∀ i ∈ (icFilterDate (icFilterBounds (cat aid) region) st et).map Modis.qa,
          i.hasAllBands (BANDREMAP "modis") = true := by
        intro i hi
        obtain ⟨i0, hi0, rfl⟩ := List.mem_map.mp hi
        rw [hasAllBands_congr _ i0 (bandNames_qa_modis i0)]
        exact hbase i0 hi0
      obtain ⟨im1, him1, rfl⟩ := List.mem_map.mp hm
      rw [bandNames_clip_carry]
      exact bandNames_select_map _ "modis" rfl hq im1 him1
  · intro cat region st et aid adj u hAll
    have hbase : ∀ i ∈ icFilterDate (icFilterBounds (cat aid) region) st et,
        i.hasAllBands (BANDREMAP "viirs") = true :=
      fun i hi => hAll i (mem_catalog_of_mem_base cat aid region st et i hi)
    have hq : ∀ i ∈ (icFilterDate (icFilterBounds (cat aid) region) st et).map Viirs.qa,
        i.hasAllBands (BANDREMAP "viirs") = true := by
      intro i hi
      obtain ⟨i0, hi0, rfl⟩ := List.mem_map.mp hi
      rw [hasAllBands_congr _ i0 (bandNames_qa_viirs i0)]
      exact hbase i0 hi0
    cases u with
    | false =>
      cases adj with
      | false =>
        refine ⟨_, rfl, ?_⟩
        intro img hm
        exact bandNames_select_map _ "viirs" rfl hbase img hm
      | true =>
        refine ⟨_, rfl, ?_⟩
        intro img hm
        obtain ⟨im1, him1, rfl⟩ := List.mem_map.mp hm
        have hsel := bandNames_select_map _ "viirs" rfl hbase im1 him1
        have hlen6 : im1.bands.length = 6 := by
          have hc := congrArg List.length hsel
          simpa [EEImage.bandNames, BANDREMAP] using hc
        refine Eq.trans (bandNames_band_pass _ _ im1 ?_ ?_) hsel
        · rw [hlen6]; simp
        · rw [hlen6]; simp
    | true =>
      cases adj with
      | false =>
        refine ⟨_, rfl, ?_⟩
        intro img hm
        exact bandNames_select_map _ "viirs" rfl hq img hm
      | true =>
        refine ⟨_, rfl, ?_⟩
        intro img hm
        obtain ⟨im1, him1, rfl⟩ := List.mem_map.mp hm
        have hsel := bandNames_select_map _ "viirs" rfl hq im1 him1
        have hlen6 : im1.bands.length = 6 := by
          have hc := congrArg List.length hsel
          simpa [EEImage.bandNames, BANDREMAP] using hc
        refine Eq.trans (bandNames_band_pass _ _ im1 ?_ ?_) hsel
        · rw [hlen6]; simp
        · rw [hlen6]; simp

/-- Witness applying each amended-C4 conjunct at a concrete catalog. -/
theorem claim_C4_amended_optical_harmonization_witness :
    (∃ d, Sentinel2.init (fun _ => [optTestImage (BANDREMAP "sen2")])
        (Geom.cells [(0, 0)]) 0 1 "a" false false = Except.ok d ∧
      ∀ img ∈ d.collection, img.bandNames = BANDREMAP "new") ∧
    (∃ d, Landsat7.init (fun _ => [optTestImage (BANDREMAP "landsat7")])
        (Geom.cells [(0, 0)]) 0 1 "a" false false = Except.ok d ∧
      ∀ img ∈ d.collection, img.bandNames = BANDREMAP "new") ∧
    (∃ d, Landsat8.init (fun _ => [optTestImage (BANDREMAP "landsat8")])
        (Geom.cells [(0, 0)]) 0 1 "a" false = Except.ok d ∧
      ∀ img ∈ d.collection, img.bandNames = BANDREMAP "new") ∧
    (∃ d, Modis.init (fun _ => [optTestImage (BANDREMAP "modis")])
        (Geom.cells [(0, 0)]) 0 1 "a" false = Except.ok d ∧
      ∀ img ∈ d.collection, img.bandNames = BANDREMAP "new") ∧
    (∃ d, Viirs.init (fun _ => [optTestImage (BANDREMAP "viirs")])
        (Geom.cells [(0, 0)]) 0 1 "a" false false = Except.ok d ∧
      ∀ img ∈ d.collection, img.bandNames = BANDREMAP "new") :=
  ⟨claim_C4_amended_optical_harmonization.1 _ _ _ _ _ false false (by decide),
   claim_C4_amended_optical_harmonization.2.1 _ _ _ _ _ false false (by decide),
   claim_C4_amended_optical_harmonization.2.2.1 _ _ _ _ _ false (by decide),
   claim_C4_amended_optical_harmonization.2.2.2.1 _ _ _ _ _ false (by decide),
   claim_C4_amended_optical_harmonization.2.2.2.2 _ _ _ _ _ false false (by decide)⟩
